import Mathlib

/-
Verification of `mesonbuild/compilers/c3.py` — the C3 compiler backend.

Python strings are modelled as `List Char`; the POSIX path helpers
(`posixpath.join`, `posixpath.normpath`) that `compute_parameters_with_absolute_paths`
calls are translated component by component.  Child processes spawned by
`sanity_check` are modelled by supplying their exit codes in an environment record
and recording the side effects the function performs, in order.
-/

/-- Python strings, modelled as lists of characters. -/
abbrev PyStr := List Char

/-- Python `str.split('/')`: split at every slash, keeping empty pieces.  The
result is always nonempty, so prepending a character extends its first piece. -/
def splitOnSlash : PyStr → List PyStr
  | [] => [[]]
  | c :: cs =>
    if c = '/' then [] :: splitOnSlash cs
    else (c :: (splitOnSlash cs).headI) :: (splitOnSlash cs).tail

/-- Python `'/'.join(comps)`. -/
def joinSlash : List PyStr → PyStr
  | [] => []
  | [w] => w
  | w :: ws => w ++ '/' :: joinSlash ws

/-- The number of leading slashes `posixpath.normpath` preserves (POSIX keeps one or
two initial slashes; three or more collapse to one). -/
def initialSlashes (path : PyStr) : Nat :=
  if path.take 1 = ['/'] then
    if path.take 2 = ['/', '/'] ∧ ¬ path.take 3 = ['/', '/', '/'] then 2 else 1
  else 0

/-- One iteration of the component loop inside `posixpath.normpath`. -/
def npStep (slashes : Nat) (acc : List PyStr) (comp : PyStr) : List PyStr :=
  if comp = [] ∨ comp = ['.'] then acc
  else if comp ≠ ['.', '.'] ∨ (slashes = 0 ∧ acc = []) ∨
      (acc ≠ [] ∧ acc.getLast? = some ['.', '.']) then
    acc ++ [comp]
  else if acc ≠ [] then acc.dropLast
  else acc

/-- `posixpath.normpath`: collapse `.`, `..` and redundant separators; purely
syntactic, no filesystem access. -/
def normpath (path : PyStr) : PyStr :=
  if path = [] then ['.']
  else if List.replicate (initialSlashes path) '/' ++
      joinSlash ((splitOnSlash path).foldl (npStep (initialSlashes path)) []) = [] then ['.']
  else List.replicate (initialSlashes path) '/' ++
      joinSlash ((splitOnSlash path).foldl (npStep (initialSlashes path)) [])

/-- `posixpath.join` restricted to two arguments, the form the backend uses. -/
def ospath_join (a b : PyStr) : PyStr :=
  if b.take 1 = ['/'] then b
  else if a = [] ∨ a.getLast? = some '/' then a ++ b
  else a ++ '/' :: b

/-- The loop body of `C3Compiler.compute_parameters_with_absolute_paths` for one
flag: a flag whose first two characters are `-I` or `-L` has its remainder joined
to the build directory and normalized; every other flag is left alone. -/
def rewriteFlag (build_dir : PyStr) (i : PyStr) : PyStr :=
  if i.take 2 = ['-', 'I'] ∨ i.take 2 = ['-', 'L'] then
    i.take 2 ++ normpath (ospath_join build_dir (i.drop 2))
  else i

/-- `C3Compiler.compute_parameters_with_absolute_paths`: the in-place loop writes
only the index it has just read, so the final contents are the element-wise
rewrite of the list. -/
def compute_parameters_with_absolute_paths (parameter_list : List PyStr)
    (build_dir : PyStr) : List PyStr :=
  parameter_list.map (rewriteFlag build_dir)

/-- Observable effect of one call to `compute_parameters_with_absolute_paths`:
`(returned list, contents of the caller's list after the call)`.  The Python code
assigns `parameter_list[idx]` in place and returns `parameter_list` itself, so the
two components coincide. -/
def compute_parameters_call (parameter_list : List PyStr) (build_dir : PyStr) :
    List PyStr × List PyStr :=
  (compute_parameters_with_absolute_paths parameter_list build_dir,
   compute_parameters_with_absolute_paths parameter_list build_dir)

/-- `C3Compiler.get_include_args`: `['--libdir', path]` regardless of `is_system`. -/
def get_include_args (path : PyStr) ( is_system : Bool) : List PyStr :=
  ["--libdir".data, path]

/-- The `c3_optimization_args` dictionary, as an association list in source order. -/
def c3_optimization_args : List (String × List String) :=
  [("plain", []), ("0", ["-O0"]), ("g", ["-Og"]), ("1", ["-O1"]), ("2", ["-O2"]),
   ("3", ["-O3"]), ("s", ["-Os"]), ("4", ["-O4"]), ("5", ["-O5"]), ("z", ["-Oz"])]

/-- `C3Compiler.get_optimization_args`: a raising dictionary subscript;
`none` models the `KeyError` escaping on an unknown level. -/
def get_optimization_args (optimization_level : String) : Option (List String) :=
  c3_optimization_args.lookup optimization_level

/-- `C3Compiler.depfile_for_object`: the computing line is commented out in the
source; the method always returns `None`. -/
def depfile_for_object (objfile : String) : Option String := none

/-- `C3Compiler.get_depfile_suffix`. -/
def get_depfile_suffix : String := "d"

/-- `C3Compiler.get_compile_only_args`. -/
def get_compile_only_args : List String := ["compile-only"]

/-- `os.path.join` on Lean strings (two arguments), for `sanity_check`. -/
def ospath_join_s (a b : String) : String := ⟨ospath_join a.data b.data⟩

/-- The backend fields `sanity_check` reads.  `name_string()` lives on the base
`Compiler` class (outside this source file) and yields the backend's display
identity; it is carried here as the string field `name_str`. -/
structure C3Compiler where
  exelist : List String
  is_cross : Bool
  name_str : String
deriving DecidableEq

/-- External inputs and child-process outcomes one run of `sanity_check` observes.
`compile_output` is whatever the compile child writes on stdout/stderr. -/
structure SanityEnv where
  external_args : List String
  external_link_args : List String
  compile_returncode : Int
  compile_output : String
  run_returncode : Int
deriving DecidableEq

/-- Side effects of `sanity_check`, in order.  `spawn` records the argv, the
working directory, and whether stdout resp. stderr were redirected to pipes; the
source passes no redirection to `subprocess.Popen`, so both flags are `false`
(the child inherits the parent's streams). -/
inductive SanityEvent where
  | writeSource (path : String) (contents : String)
  | spawn (argv : List String) (cwd : String) (stdoutPiped : Bool) (stderrPiped : Bool)
  | callBinary (path : String)
deriving DecidableEq

/-- Result of `sanity_check`: the side effects performed and the message of the
`EnvironmentException` raised, if any. -/
structure SanityOutcome where
  events : List SanityEvent
  raised : Option String
deriving DecidableEq

/-- `C3Compiler.sanity_check`, with the child processes' exit codes supplied by
`env`. -/
def sanity_check (c : C3Compiler) (work_dir : String) (env : SanityEnv) :
    SanityOutcome :=
  let src := "c3ctest.c3"
  let source_name := ospath_join_s work_dir src
  let output_name := ospath_join_s (ospath_join_s work_dir "c3test") "c3test"
  let extra_flags := env.external_args ++
    (if c.is_cross then get_compile_only_args else env.external_link_args)
  let pre_events := [SanityEvent.writeSource source_name "fn int main()\x7breturn 0;\x7d\n",
    SanityEvent.spawn (c.exelist ++ extra_flags ++ ["compile", src, "-o", output_name])
      work_dir false false]
  if env.compile_returncode ≠ 0 then
    { events := pre_events,
      raised := some ("C3 compiler " ++ c.name_str ++ " cannot compile programs.") }
  else if c.is_cross then
    { events := pre_events, raised := none }
  else if env.run_returncode ≠ 0 then
    { events := pre_events ++ [SanityEvent.callBinary output_name],
      raised := some ("Executables created by C3 compiler " ++ c.name_str ++
        " are not runnable.") }
  else
    { events := pre_events ++ [SanityEvent.callBinary output_name], raised := none }

/-- A path component that `normpath`'s loop passes through untouched: nonempty,
not `.`, not `..`, and slash-free.  Every component of a normalized absolute
path has this shape. -/
def GoodComp (w : PyStr) : Prop := w ≠ [] ∧ w ≠ ['.'] ∧ w ≠ ['.', '.'] ∧ '/' ∉ w

theorem splitOnSlash_ne_nil (p : PyStr) : splitOnSlash p ≠ [] := by
  cases p with
  | nil => simp [splitOnSlash]
  | cons c cs =>
    simp only [splitOnSlash]
    split <;> simp

theorem splitOnSlash_cons_slash (p : PyStr) : splitOnSlash ('/' :: p) = [] :: splitOnSlash p := by
  simp [splitOnSlash]

theorem splitOnSlash_slash_free (w : PyStr) (h : '/' ∉ w) : splitOnSlash w = [w] := by
  induction w with
  | nil => rfl
  | cons c cs ih =>
    have hc : ¬ c = '/' := fun e => h (by simp [e])
    have hcs : '/' ∉ cs := fun e => h (by simp [e])
    simp [splitOnSlash, hc, ih hcs]

theorem splitOnSlash_append_slash_cons (w rest : PyStr) (h : '/' ∉ w) :
    splitOnSlash (w ++ '/' :: rest) = w :: splitOnSlash rest := by
  induction w with
  | nil => simp [splitOnSlash]
  | cons c cs ih =>
    have hc : ¬ c = '/' := fun e => h (by simp [e])
    have hcs : '/' ∉ cs := fun e => h (by simp [e])
    simp [splitOnSlash, hc, ih hcs]

theorem splitOnSlash_joinSlash (ws : List PyStr) (h0 : ws ≠ [])
    (h : ∀ w ∈ ws, '/' ∉ w) : splitOnSlash (joinSlash ws) = ws := by
  induction ws with
  | nil => exact absurd rfl h0
  | cons w ws ih =>
    cases ws with
    | nil => exact splitOnSlash_slash_free w (h w (by simp))
    | cons v vs =>
      have : joinSlash (w :: v :: vs) = w ++ '/' :: joinSlash (v :: vs) := rfl
      rw [this, splitOnSlash_append_slash_cons w _ (h w (by simp))]
      rw [ih (by simp) (fun u hu => h u (by simp [hu]))]

theorem splitOnSlash_append_slash (xs : PyStr) :
    splitOnSlash (xs ++ ['/']) = splitOnSlash xs ++ [[]] := by
  induction xs with
  | nil => rfl
  | cons c cs ih =>
    by_cases hc : c = '/'
    · subst hc
      simp only [List.cons_append, splitOnSlash_cons_slash, ih, List.cons_append]
    · obtain ⟨w, ws, hw⟩ := List.exists_cons_of_ne_nil (splitOnSlash_ne_nil cs)
      simp only [List.cons_append, splitOnSlash, hc, if_false, List.append_eq]
      rw [ih, hw]
      simp

theorem mem_splitOnSlash_slash_free (p : PyStr) (w : PyStr) (h : w ∈ splitOnSlash p) :
    '/' ∉ w := by
  induction p generalizing w with
  | nil => simp [splitOnSlash] at h; simp [h]
  | cons c cs ih =>
    by_cases hc : c = '/'
    · subst hc
      rw [splitOnSlash_cons_slash] at h
      rcases List.mem_cons.1 h with rfl | h
      · simp
      · exact ih w h
    · obtain ⟨v, vs, hv⟩ := List.exists_cons_of_ne_nil (splitOnSlash_ne_nil cs)
      simp only [splitOnSlash, hc, if_false, hv] at h
      rcases List.mem_cons.1 h with rfl | h
      · have hvmem : v ∈ splitOnSlash cs := by rw [hv]; simp
        have := ih v hvmem
        simp only [List.headI]
        intro hmem
        rcases List.mem_cons.1 hmem with e | e
        · exact hc e.symm
        · exact this e
      · exact ih w (by rw [hv]; exact List.mem_cons_of_mem v (by simpa using h))

theorem joinSlash_take_one_ne (comps : List PyStr) (h : ∀ w ∈ comps, GoodComp w) :
    (joinSlash comps).take 1 ≠ ['/'] := by
  cases comps with
  | nil => simp [joinSlash]
  | cons w ws =>
    obtain ⟨hne, _, _, hsl⟩ := h w (by simp)
    obtain ⟨c, w', rfl⟩ := List.exists_cons_of_ne_nil hne
    have hc : c ≠ '/' := fun e => hsl (by simp [e])
    cases ws with
    | nil => simp [joinSlash, hc]
    | cons v vs => simp [joinSlash, hc]

theorem npStep_empty (s : Nat) (acc : List PyStr) : npStep s acc [] = acc := by
  simp [npStep]

theorem npStep_good (s : Nat) (acc : List PyStr) (w : PyStr) (h : GoodComp w) :
    npStep s acc w = acc ++ [w] := by
  obtain ⟨h1, h2, h3, _⟩ := h
  simp [npStep, h1, h2, h3]

theorem foldl_npStep_empties (s : Nat) (l : List PyStr) (acc : List PyStr)
    (h : ∀ w ∈ l, w = []) : List.foldl (npStep s) acc l = acc := by
  induction l generalizing acc with
  | nil => rfl
  | cons w ws ih =>
    rw [List.foldl_cons, h w (by simp), npStep_empty]
    exact ih acc (fun u hu => h u (by simp [hu]))

theorem foldl_npStep_goods (s : Nat) (comps : List PyStr) (acc : List PyStr)
    (h : ∀ w ∈ comps, GoodComp w) :
    List.foldl (npStep s) acc comps = acc ++ comps := by
  induction comps generalizing acc with
  | nil => simp
  | cons w ws ih =>
    rw [List.foldl_cons, npStep_good s acc w (h w (by simp))]
    rw [ih (acc ++ [w]) (fun u hu => h u (by simp [hu]))]
    simp

theorem npStep_preserves_good (s : Nat) (hs : s ≠ 0) (acc : List PyStr) (c : PyStr)
    (hacc : ∀ w ∈ acc, GoodComp w) (hc : '/' ∉ c) :
    ∀ w ∈ npStep s acc c, GoodComp w := by
  intro w hw
  unfold npStep at hw
  split at hw
  · exact hacc w hw
  case isFalse h1 =>
    split at hw
    case isTrue h2 =>
      rcases List.mem_append.1 hw with h | h
      · exact hacc w h
      · have hwc : w = c := by simpa using h
        subst hwc
        push_neg at h1
        have hdd : w ≠ ['.', '.'] := by
          rcases h2 with h2 | h2 | h2
          · exact h2
          · exact absurd h2.1 hs
          · obtain ⟨hne, hlast⟩ := h2
            have := hacc _ (List.mem_of_getLast?_eq_some hlast)
            exact absurd rfl this.2.2.1
        exact ⟨h1.1, h1.2, hdd, hc⟩
    · split at hw
      · exact hacc w (List.dropLast_subset acc hw)
      · exact hacc w hw

theorem foldl_npStep_good (s : Nat) (hs : s ≠ 0) (comps : List PyStr) (acc : List PyStr)
    (hacc : ∀ w ∈ acc, GoodComp w) (hcomps : ∀ w ∈ comps, '/' ∉ w) :
    ∀ w ∈ List.foldl (npStep s) acc comps, GoodComp w := by
  induction comps generalizing acc with
  | nil => exact hacc
  | cons c cs ih =>
    rw [List.foldl_cons]
    exact ih (npStep s acc c)
      (npStep_preserves_good s hs acc c hacc (hcomps c (by simp)))
      (fun u hu => hcomps u (by simp [hu]))

theorem initialSlashes_pos (p : PyStr) (h : p.take 1 = ['/']) :
    1 ≤ initialSlashes p ∧ initialSlashes p ≤ 2 := by
  unfold initialSlashes
  rw [if_pos h]
  split <;> omega

theorem normpath_abs_shape (p : PyStr) (h : p.take 1 = ['/']) :
    ∃ comps, (∀ w ∈ comps, GoodComp w) ∧
      normpath p = List.replicate (initialSlashes p) '/' ++ joinSlash comps ∧
      1 ≤ initialSlashes p ∧ initialSlashes p ≤ 2 := by
  have hp : p ≠ [] := by
    intro e; subst e; simp at h
  obtain ⟨h1, h2⟩ := initialSlashes_pos p h
  refine ⟨(splitOnSlash p).foldl (npStep (initialSlashes p)) [], ?_, ?_, h1, h2⟩
  · exact foldl_npStep_good _ (by omega) _ [] (by simp)
      (fun w hw => mem_splitOnSlash_slash_free p w hw)
  · unfold normpath
    rw [if_neg hp, if_neg]
    intro e
    have : List.replicate (initialSlashes p) '/' = ([] : PyStr) :=
      List.eq_nil_of_length_eq_zero (by
        have := congrArg List.length e
        simp at this
        simp [this])
    have hk := congrArg List.length this
    simp at hk
    omega

theorem initialSlashes_one_slash (t : PyStr) (h : t.take 1 ≠ ['/']) :
    initialSlashes ('/' :: t) = 1 := by
  unfold initialSlashes
  rw [if_pos (show List.take 1 ('/' :: t) = ['/'] from rfl), if_neg]
  intro hand
  apply h
  have h2 := hand.1
  have he : List.take 2 ('/' :: t) = '/' :: List.take 1 t := rfl
  rw [he] at h2
  injection h2

theorem initialSlashes_two_slash (t : PyStr) (h : t.take 1 ≠ ['/']) :
    initialSlashes ('/' :: '/' :: t) = 2 := by
  unfold initialSlashes
  rw [if_pos (show List.take 1 ('/' :: '/' :: t) = ['/'] from rfl), if_pos]
  refine ⟨rfl, ?_⟩
  intro h3
  apply h
  have he : List.take 3 ('/' :: '/' :: t) = '/' :: '/' :: List.take 1 t := rfl
  rw [he] at h3
  injection h3 with _ h3
  injection h3

theorem normpath_fixed (k : Nat) (h1 : 1 ≤ k) (h2 : k ≤ 2) (comps : List PyStr)
    (hc : ∀ w ∈ comps, GoodComp w) :
    normpath (List.replicate k '/' ++ joinSlash comps) =
      List.replicate k '/' ++ joinSlash comps := by
  have hne : List.replicate k '/' ++ joinSlash comps ≠ [] := by
    intro e
    have := congrArg List.length e
    simp at this
    omega
  have hinit : initialSlashes (List.replicate k '/' ++ joinSlash comps) = k := by
    interval_cases k
    · simpa [List.replicate_succ] using
        initialSlashes_one_slash _ (joinSlash_take_one_ne comps hc)
    · simpa [List.replicate_succ] using
        initialSlashes_two_slash _ (joinSlash_take_one_ne comps hc)
  have hsplit : splitOnSlash (List.replicate k '/' ++ joinSlash comps) =
      List.replicate k [] ++ splitOnSlash (joinSlash comps) := by
    interval_cases k <;>
      simp [List.replicate_succ, splitOnSlash_cons_slash]
  have hfold : List.foldl (npStep k) []
      (List.replicate k [] ++ splitOnSlash (joinSlash comps)) = comps := by
    rw [List.foldl_append,
      foldl_npStep_empties k _ [] (fun w hw => List.eq_of_mem_replicate hw)]
    cases hcomps : comps with
    | nil => simp [joinSlash, splitOnSlash, npStep_empty]
    | cons w ws =>
      rw [← hcomps,
        splitOnSlash_joinSlash comps (by rw [hcomps]; simp)
          (fun u hu => (hc u hu).2.2.2),
        foldl_npStep_goods k comps [] hc]
      simp
  unfold normpath
  rw [if_neg hne, hinit, hsplit, hfold, if_neg hne]

theorem normpath_abs_take_one (p : PyStr) (h : p.take 1 = ['/']) :
    (normpath p).take 1 = ['/'] := by
  obtain ⟨comps, hc, he, h1, h2⟩ := normpath_abs_shape p h
  rw [he]
  obtain ⟨n, hn⟩ : ∃ n, initialSlashes p = n + 1 := ⟨initialSlashes p - 1, by omega⟩
  rw [hn]
  simp [List.replicate_succ]

theorem normpath_idem_abs (p : PyStr) (h : p.take 1 = ['/']) :
    normpath (normpath p) = normpath p := by
  obtain ⟨comps, hc, he, h1, h2⟩ := normpath_abs_shape p h
  rw [he, normpath_fixed _ h1 h2 comps hc]

theorem ospath_join_abs_right (a b : PyStr) (h : b.take 1 = ['/']) :
    ospath_join a b = b := by
  unfold ospath_join
  rw [if_pos h]

theorem ospath_join_abs_take_one (a b : PyStr) (h : a.take 1 = ['/']) :
    (ospath_join a b).take 1 = ['/'] := by
  have ha : a ≠ [] := by intro e; subst e; simp at h
  obtain ⟨c, a', rfl⟩ := List.exists_cons_of_ne_nil ha
  have hc : c = '/' := by simpa using h
  subst hc
  unfold ospath_join
  split
  case isTrue hb => exact hb
  split <;> simp

theorem normpath_ne_nil (p : PyStr) : normpath p ≠ [] := by
  unfold normpath
  split
  · simp
  split
  · simp
  · assumption

theorem initialSlashes_congr (p q : PyStr) (h : p.take 3 = q.take 3) :
    initialSlashes p = initialSlashes q := by
  have h1 : p.take 1 = q.take 1 := by
    have := congrArg (List.take 1) h
    simpa [List.take_take] using this
  have h2 : p.take 2 = q.take 2 := by
    have := congrArg (List.take 2) h
    simpa [List.take_take] using this
  unfold initialSlashes
  rw [h1, h2, h]

theorem initialSlashes_append_slash (bd : PyStr) (h1 : bd ≠ [])
    (h2 : bd.getLast? ≠ some '/') :
    initialSlashes (bd ++ ['/']) = initialSlashes bd := by
  match bd, h1 with
  | [a], _ =>
    have ha : a ≠ '/' := by simpa using h2
    simp [initialSlashes, List.take, ha]
  | [a, b], _ =>
    have hb : b ≠ '/' := by simpa using h2
    by_cases hA : a = '/'
    · subst hA
      simp [initialSlashes, List.take, hb]
    · simp [initialSlashes, List.take, hA]
  | (a :: b :: c :: r), _ =>
    apply initialSlashes_congr
    simp [List.take]

theorem normpath_append_slash (bd : PyStr) (h1 : bd ≠ []) (h2 : bd.getLast? ≠ some '/') :
    normpath (bd ++ ['/']) = normpath bd := by
  unfold normpath
  rw [if_neg (by simp), if_neg h1,
    initialSlashes_append_slash bd h1 h2, splitOnSlash_append_slash, List.foldl_append]
  simp only [List.foldl_cons, List.foldl_nil, npStep_empty]

theorem normpath_ospath_join_nil (bd : PyStr) :
    normpath (ospath_join bd []) = normpath bd := by
  unfold ospath_join
  rw [if_neg (by simp)]
  split
  case isTrue h => simp
  case isFalse h =>
    push_neg at h
    show normpath (bd ++ '/' :: []) = normpath bd
    exact normpath_append_slash bd h.1 h.2

theorem rewriteFlag_unchanged (bd i : PyStr) (h1 : i.take 2 ≠ ['-', 'I'])
    (h2 : i.take 2 ≠ ['-', 'L']) : rewriteFlag bd i = i := by
  unfold rewriteFlag
  rw [if_neg]
  push_neg
  exact ⟨h1, h2⟩

theorem rewriteFlag_idem (bd i : PyStr) (h : bd.take 1 = ['/']) :
    rewriteFlag bd (rewriteFlag bd i) = rewriteFlag bd i := by
  by_cases hi : i.take 2 = ['-', 'I'] ∨ i.take 2 = ['-', 'L']
  · have hr : rewriteFlag bd i = i.take 2 ++ normpath (ospath_join bd (i.drop 2)) := by
      unfold rewriteFlag
      rw [if_pos hi]
    have hq1 : (normpath (ospath_join bd (i.drop 2))).take 1 = ['/'] :=
      normpath_abs_take_one _ (ospath_join_abs_take_one bd _ h)
    have hlen : (i.take 2).length = 2 := by
      rcases hi with hi | hi <;> rw [hi] <;> rfl
    have ht2 : (i.take 2 ++ normpath (ospath_join bd (i.drop 2))).take 2 = i.take 2 :=
      List.take_left' hlen
    have hd2 : (i.take 2 ++ normpath (ospath_join bd (i.drop 2))).drop 2 =
        normpath (ospath_join bd (i.drop 2)) :=
      List.drop_left' hlen
    rw [hr]
    unfold rewriteFlag
    rw [if_pos (by rw [ht2]; exact hi), ht2, hd2]
    congr 1
    rw [ospath_join_abs_right bd _ hq1]
    exact normpath_idem_abs _ (ospath_join_abs_take_one bd _ h)
  · push_neg at hi
    rw [rewriteFlag_unchanged bd i hi.1 hi.2, rewriteFlag_unchanged bd i hi.1 hi.2]

/-- C1: every optimization level in the closed set
`{plain, 0, g, 1, 2, 3, s, 4, 5, z}` resolves to a defined (possibly empty) flag
sequence — in particular `2` maps to `['-O2']` and `plain` to `[]` — while every
level outside the set makes `get_optimization_args` fail hard (the dictionary
lookup finds no entry) instead of returning a silent empty result. -/
theorem C1_optimization_args_closed_set :
    (∀ k, k ∈ ["plain", "0", "g", "1", "2", "3", "s", "4", "5", "z"] →
      (get_optimization_args k).isSome = true) ∧
    (∀ k, k ∉ ["plain", "0", "g", "1", "2", "3", "s", "4", "5", "z"] →
      get_optimization_args k = none) ∧
    get_optimization_args "2" = some ["-O2"] ∧
    get_optimization_args "plain" = some [] := by
  refine ⟨?_, ?_, by decide, by decide⟩
  · intro k hk
    simp only [List.mem_cons, List.not_mem_nil, or_false] at hk
    rcases hk with rfl | rfl | rfl | rfl | rfl | rfl | rfl | rfl | rfl | rfl <;> decide
  · intro k hk
    simp only [List.mem_cons, List.not_mem_nil, or_false, not_or] at hk
    obtain ⟨h1, h2, h3, h4, h5, h6, h7, h8, h9, h10⟩ := hk
    have e1 : (k == "plain") = false := beq_eq_false_iff_ne.mpr h1
    have e2 : (k == "0") = false := beq_eq_false_iff_ne.mpr h2
    have e3 : (k == "g") = false := beq_eq_false_iff_ne.mpr h3
    have e4 : (k == "1") = false := beq_eq_false_iff_ne.mpr h4
    have e5 : (k == "2") = false := beq_eq_false_iff_ne.mpr h5
    have e6 : (k == "3") = false := beq_eq_false_iff_ne.mpr h6
    have e7 : (k == "s") = false := beq_eq_false_iff_ne.mpr h7
    have e8 : (k == "4") = false := beq_eq_false_iff_ne.mpr h8
    have e9 : (k == "5") = false := beq_eq_false_iff_ne.mpr h9
    have e10 : (k == "z") = false := beq_eq_false_iff_ne.mpr h10
    simp [get_optimization_args, c3_optimization_args, List.lookup,
      e1, e2, e3, e4, e5, e6, e7, e8, e9, e10]

/-- Witness for C1 at the concrete levels `2` (known) and `9` (unknown). -/
theorem C1_optimization_args_closed_set_witness :
    (get_optimization_args "2").isSome = true ∧ get_optimization_args "9" = none :=
  ⟨C1_optimization_args_closed_set.1 "2" (by decide),
   C1_optimization_args_closed_set.2.1 "9" (by decide)⟩

/-- C2 counterexample: on `['-Ilib']` with build directory `/build`, the caller's
list after the call is `['-I/build/lib']`, not the original `['-Ilib']` — the
function rewrites its input in place, so the input is mutated. -/
theorem C2_counterexample_input_mutated :
    (compute_parameters_call ["-Ilib".data] "/build".data).2 ≠ ["-Ilib".data] := by
  decide

/-- C2 (amended): `compute_parameters_with_absolute_paths` returns a sequence of
the same length with each position rewritten independently (order preserved),
but it mutates the caller's list in place and returns that same list: after the
call the caller's list equals the returned sequence. -/
theorem C2_call_aliasing_and_shape (parameter_list : List PyStr) (build_dir : PyStr) :
    (compute_parameters_call parameter_list build_dir).2 =
      (compute_parameters_call parameter_list build_dir).1 ∧
    (compute_parameters_call parameter_list build_dir).1.length =
      parameter_list.length ∧
    ∀ i : Nat, ((compute_parameters_call parameter_list build_dir).1)[i]? =
      (parameter_list[i]?).map (rewriteFlag build_dir) := by
  refine ⟨rfl, ?_, ?_⟩
  · simp [compute_parameters_call, compute_parameters_with_absolute_paths]
  · intro i
    simp [compute_parameters_call, compute_parameters_with_absolute_paths]

/-- C3 counterexample: with the relative build directory `build`, rewriting
`['-Ilib']` once gives `['-Ibuild/lib']` but twice gives `['-Ibuild/build/lib']`,
so the function is not idempotent for every build directory. -/
theorem C3_counterexample_relative_build_dir :
    compute_parameters_with_absolute_paths
        (compute_parameters_with_absolute_paths ["-Ilib".data] "build".data)
        "build".data ≠
      compute_parameters_with_absolute_paths ["-Ilib".data] "build".data := by
  decide

/-- C3 (amended): whenever the build directory is absolute (begins with `/`),
`compute_parameters_with_absolute_paths` is idempotent: applying it twice with
the same build directory equals applying it once. -/
theorem C3_idempotent_of_absolute_build_dir (parameter_list : List PyStr)
    (build_dir : PyStr) (h : build_dir.take 1 = ['/']) :
    compute_parameters_with_absolute_paths
        (compute_parameters_with_absolute_paths parameter_list build_dir) build_dir =
      compute_parameters_with_absolute_paths parameter_list build_dir := by
  unfold compute_parameters_with_absolute_paths
  rw [List.map_map]
  exact List.map_congr_left (fun i _ => rewriteFlag_idem build_dir i h)

/-- Witness for C3 (amended) at `['-Ilib']` and absolute build directory `/build`. -/
theorem C3_idempotent_of_absolute_build_dir_witness :
    compute_parameters_with_absolute_paths
        (compute_parameters_with_absolute_paths ["-Ilib".data] "/build".data)
        "/build".data =
      compute_parameters_with_absolute_paths ["-Ilib".data] "/build".data :=
  C3_idempotent_of_absolute_build_dir ["-Ilib".data] "/build".data (by decide)

/-- C4: the rewrite preserves length and relative order (position `i` of the
result comes from position `i` of the input), leaves every flag not starting
with `-I` or `-L` byte-identical, and on `['-Ilib', '-Wall']` with build
directory `/build` yields `['-I/build/lib', '-Wall']`. -/
theorem C4_shape_preserved (parameter_list : List PyStr) (build_dir : PyStr) :
    (compute_parameters_with_absolute_paths parameter_list build_dir).length =
      parameter_list.length ∧
    (∀ (i : Nat) (x : PyStr), parameter_list[i]? = some x → x.take 2 ≠ ['-', 'I'] →
      x.take 2 ≠ ['-', 'L'] →
      (compute_parameters_with_absolute_paths parameter_list build_dir)[i]? = some x) ∧
    compute_parameters_with_absolute_paths ["-Ilib".data, "-Wall".data] "/build".data =
      ["-I/build/lib".data, "-Wall".data] := by
  refine ⟨by simp [compute_parameters_with_absolute_paths], ?_, by decide⟩
  intro i x hx h1 h2
  simp only [compute_parameters_with_absolute_paths, List.getElem?_map, hx,
    Option.map_some']
  rw [rewriteFlag_unchanged build_dir x h1 h2]

/-- Witness for C4: the non-path flag `-Wall` at index 1 survives byte-identical. -/
theorem C4_shape_preserved_witness :
    (compute_parameters_with_absolute_paths ["-Ilib".data, "-Wall".data]
      "/build".data)[1]? = some "-Wall".data :=
  (C4_shape_preserved ["-Ilib".data, "-Wall".data] "/build".data).2.1 1 "-Wall".data
    (by decide) (by decide) (by decide)

/-- C5: whenever the compile probe exits with nonzero status, `sanity_check`
raises the `cannot compile programs` error naming the backend's display
identity, and no execution of the produced binary is ever attempted. -/
theorem C5_compile_failure_fatal_no_run (c : C3Compiler) (work_dir : String)
    (env : SanityEnv) (h : env.compile_returncode ≠ 0) :
    (sanity_check c work_dir env).raised =
      some ("C3 compiler " ++ c.name_str ++ " cannot compile programs.") ∧
    ∀ p, SanityEvent.callBinary p ∉ (sanity_check c work_dir env).events := by
  simp only [sanity_check]
  rw [if_pos h]
  exact ⟨rfl, fun p => by simp⟩

/-- Witness for C5 at a concrete backend and a failing compile exit status. -/
theorem C5_compile_failure_fatal_no_run_witness :
    (sanity_check ⟨["c3c"], false, "c3c"⟩ "/w" ⟨[], [], 1, "boom", 0⟩).raised =
      some ("C3 compiler " ++ "c3c" ++ " cannot compile programs.") ∧
    ∀ p, SanityEvent.callBinary p ∉
      (sanity_check ⟨["c3c"], false, "c3c"⟩ "/w" ⟨[], [], 1, "boom", 0⟩).events :=
  C5_compile_failure_fatal_no_run ⟨["c3c"], false, "c3c"⟩ "/w" ⟨[], [], 1, "boom", 0⟩
    (by decide)

/-- C6: with `is_cross` true and a zero compile exit status, `sanity_check`
reports success (raises nothing) without ever invoking the produced binary, and
the compile invocation carries the compile-only flags in the position where the
external link arguments would otherwise go. -/
theorem C6_cross_skips_execution (c : C3Compiler) (work_dir : String)
    (env : SanityEnv) (h1 : c.is_cross = true) (h2 : env.compile_returncode = 0) :
    (sanity_check c work_dir env).raised = none ∧
    (∀ p, SanityEvent.callBinary p ∉ (sanity_check c work_dir env).events) ∧
    (sanity_check c work_dir env).events =
      [SanityEvent.writeSource (ospath_join_s work_dir "c3ctest.c3")
         "fn int main()\x7breturn 0;\x7d\n",
       SanityEvent.spawn
         (c.exelist ++ (env.external_args ++ get_compile_only_args) ++
           ["compile", "c3ctest.c3", "-o",
             ospath_join_s (ospath_join_s work_dir "c3test") "c3test"])
         work_dir false false] := by
  simp only [sanity_check, h1]
  rw [if_neg (fun hc => hc h2)]
  simp

/-- Witness for C6 at a concrete cross backend with a passing compile. -/
theorem C6_cross_skips_execution_witness :
    (sanity_check ⟨["c3c"], true, "c3c"⟩ "/w" ⟨["-g"], ["-lm"], 0, "", 0⟩).raised
      = none ∧
    (∀ p, SanityEvent.callBinary p ∉
      (sanity_check ⟨["c3c"], true, "c3c"⟩ "/w" ⟨["-g"], ["-lm"], 0, "", 0⟩).events) ∧
    (sanity_check ⟨["c3c"], true, "c3c"⟩ "/w" ⟨["-g"], ["-lm"], 0, "", 0⟩).events =
      [SanityEvent.writeSource (ospath_join_s "/w" "c3ctest.c3")
         "fn int main()\x7breturn 0;\x7d\n",
       SanityEvent.spawn
         (["c3c"] ++ (["-g"] ++ get_compile_only_args) ++
           ["compile", "c3ctest.c3", "-o",
             ospath_join_s (ospath_join_s "/w" "c3test") "c3test"])
         "/w" false false] :=
  C6_cross_skips_execution ⟨["c3c"], true, "c3c"⟩ "/w" ⟨["-g"], ["-lm"], 0, "", 0⟩
    rfl rfl

/-- C7 counterexample: at a failing compile whose child wrote `XYZZY`, the raised
message is the fixed string `C3 compiler c3c cannot compile programs.`, which
does not contain the child's output, and the spawn event shows stdout and stderr
were not redirected — nothing was suppressed or captured. -/
theorem C7_counterexample_output_not_captured :
    (sanity_check ⟨["c3c"], false, "c3c"⟩ "/w" ⟨[], [], 1, "XYZZY", 0⟩).raised =
      some "C3 compiler c3c cannot compile programs." ∧
    ¬ ("XYZZY".data <:+: "C3 compiler c3c cannot compile programs.".data) ∧
    SanityEvent.spawn ["c3c", "compile", "c3ctest.c3", "-o", "/w/c3test/c3test"]
        "/w" false false ∈
      (sanity_check ⟨["c3c"], false, "c3c"⟩ "/w" ⟨[], [], 1, "XYZZY", 0⟩).events := by
  decide

/-- C7 (amended): on a failing sanity check the compile probe's stdout/stderr
are neither suppressed nor captured (the `spawn` event carries no redirection),
and the reported failure names the backend but is a fixed message independent of
the child's output. -/
theorem C7_failure_names_backend_no_capture (c : C3Compiler) (work_dir : String)
    (env : SanityEnv) (h : env.compile_returncode ≠ 0) :
    (sanity_check c work_dir env).events =
      [SanityEvent.writeSource (ospath_join_s work_dir "c3ctest.c3")
         "fn int main()\x7breturn 0;\x7d\n",
       SanityEvent.spawn
         (c.exelist ++ (env.external_args ++
             (if c.is_cross then get_compile_only_args else env.external_link_args)) ++
           ["compile", "c3ctest.c3", "-o",
             ospath_join_s (ospath_join_s work_dir "c3test") "c3test"])
         work_dir false false] ∧
    (sanity_check c work_dir env).raised =
      some ("C3 compiler " ++ c.name_str ++ " cannot compile programs.") := by
  simp only [sanity_check]
  rw [if_pos h]
  exact ⟨rfl, rfl⟩

/-- Witness for C7 (amended) at a concrete failing input. -/
theorem C7_failure_names_backend_no_capture_witness :
    (sanity_check ⟨["c3c"], false, "c3c"⟩ "/w" ⟨[], [], 1, "XYZZY", 0⟩).events =
      [SanityEvent.writeSource (ospath_join_s "/w" "c3ctest.c3")
         "fn int main()\x7breturn 0;\x7d\n",
       SanityEvent.spawn
         (["c3c"] ++ (([] : List String) ++
             (if (false : Bool) then get_compile_only_args else ([] : List String))) ++
           ["compile", "c3ctest.c3", "-o",
             ospath_join_s (ospath_join_s "/w" "c3test") "c3test"])
         "/w" false false] ∧
    (sanity_check ⟨["c3c"], false, "c3c"⟩ "/w" ⟨[], [], 1, "XYZZY", 0⟩).raised =
      some ("C3 compiler " ++ "c3c" ++ " cannot compile programs.") :=
  C7_failure_names_backend_no_capture ⟨["c3c"], false, "c3c"⟩ "/w"
    ⟨[], [], 1, "XYZZY", 0⟩ (by decide)

/-- C8: for every object-file path `depfile_for_object` answers `none` (no
depfile), while `get_depfile_suffix` simultaneously advertises the non-empty
suffix `d`. -/
theorem C8_suffix_advertised_no_depfile :
    (∀ objfile, depfile_for_object objfile = none) ∧
    get_depfile_suffix = "d" ∧ get_depfile_suffix ≠ "" :=
  ⟨fun _ => rfl, rfl, by decide⟩

/-- C9 counterexample: for the path `-Ix`, `get_include_args` returns
`['--libdir', '-Ix']`, whose second element does begin with `-I`, and the path
rewriter rewrites it — the claim's universally quantified pass-through fails. -/
theorem C9_counterexample_path_with_marker :
    compute_parameters_with_absolute_paths (get_include_args "-Ix".data true)
        "/b".data ≠ get_include_args "-Ix".data true := by
  decide

/-- C9 (amended): `get_include_args` always returns `['--libdir', path]`, and for
every path whose first two characters are not `-I` or `-L` the path rewriter
leaves both elements of that result unchanged (its own `--libdir` marker is
never rewritten). -/
theorem C9_include_args_not_rewritten (path : PyStr) (sys : Bool) (build_dir : PyStr)
    (h1 : path.take 2 ≠ ['-', 'I']) (h2 : path.take 2 ≠ ['-', 'L']) :
    get_include_args path sys = ["--libdir".data, path] ∧
    compute_parameters_with_absolute_paths (get_include_args path sys) build_dir =
      ["--libdir".data, path] := by
  refine ⟨rfl, ?_⟩
  show [rewriteFlag build_dir "--libdir".data, rewriteFlag build_dir path] = _
  rw [rewriteFlag_unchanged build_dir "--libdir".data (by decide) (by decide),
    rewriteFlag_unchanged build_dir path h1 h2]

/-- Witness for C9 (amended) at the ordinary relative path `lib`. -/
theorem C9_include_args_not_rewritten_witness :
    get_include_args "lib".data true = ["--libdir".data, "lib".data] ∧
    compute_parameters_with_absolute_paths (get_include_args "lib".data true)
        "/b".data = ["--libdir".data, "lib".data] :=
  C9_include_args_not_rewritten "lib".data true "/b".data (by decide) (by decide)

/-- C10: the bare two-character flags `-I` and `-L` are treated as path-bearing:
each is rewritten to the marker followed by the normalized build directory
(`normpath` of joining the build directory with the empty remainder equals
`normpath` of the build directory), and never passes through unchanged, since a
normalized path is nonempty. -/
theorem C10_bare_markers_rewritten (build_dir : PyStr) :
    compute_parameters_with_absolute_paths ["-I".data] build_dir =
      ["-I".data ++ normpath build_dir] ∧
    compute_parameters_with_absolute_paths ["-L".data] build_dir =
      ["-L".data ++ normpath build_dir] ∧
    "-I".data ++ normpath build_dir ≠ "-I".data ∧
    "-L".data ++ normpath build_dir ≠ "-L".data := by
  have hj := normpath_ospath_join_nil build_dir
  have hne := normpath_ne_nil build_dir
  refine ⟨?_, ?_, ?_, ?_⟩
  · show [rewriteFlag build_dir "-I".data] = _
    unfold rewriteFlag
    rw [if_pos (show List.take 2 "-I".data = ['-', 'I'] ∨
      List.take 2 "-I".data = ['-', 'L'] from Or.inl (by decide))]
    show ["-I".data ++ normpath (ospath_join build_dir [])] =
      ["-I".data ++ normpath build_dir]
    rw [hj]
  · show [rewriteFlag build_dir "-L".data] = _
    unfold rewriteFlag
    rw [if_pos (show List.take 2 "-L".data = ['-', 'I'] ∨
      List.take 2 "-L".data = ['-', 'L'] from Or.inr (by decide))]
    show ["-L".data ++ normpath (ospath_join build_dir [])] =
      ["-L".data ++ normpath build_dir]
    rw [hj]
  · intro e
    rw [List.append_right_eq_self] at e
    exact hne e
  · intro e
    rw [List.append_right_eq_self] at e
    exact hne e
